import Mathlib

/-! Shallow embedding of the log-extraction pipeline (`extract_log_data.py`):
line scanners, duration calculation, per-file extraction, per-folder and
per-tree aggregation, together with theorems checking the specification's
claims against this embedding.

Python strings are modelled as Lean `String` onto lists of `Char`; lines
of a file are modelled as `List String` (the result of `readlines`, so a
line may or may not carry its trailing newline — all definitions below are
stated for arbitrary line strings).  Python exceptions that escape a
function are modelled with `Except String`; exceptions that the source
catches are folded into `Option`/default results exactly where the source
catches them.
-/

set_option maxRecDepth 10000

-- DecidableEq for `Except`, used to evaluate embedded results on concrete inputs.
deriving instance DecidableEq for Except

/-! Section: Python string primitives -/

/-- The whitespace class stripped by Python `str.strip()` (ASCII part). -/
def isPySpace (c : Char) : Bool :=
  c = ' ' || c = '\t' || c = '\n' || c = '\r' || c = '\x0b' || c = '\x0c'

/-- Python `str.strip()` on a character list. -/
def pyStripList (cs : List Char) : List Char :=
  ((cs.dropWhile isPySpace).reverse.dropWhile isPySpace).reverse

/-- Python `str.strip()`. -/
def pyStrip (s : String) : String :=
  String.mk (pyStripList s.toList)

/-- Python `str.startswith(p)`. -/
def pyStartsWith (s p : String) : Bool :=
  p.toList.isPrefixOf s.toList

/-- Python `str.endswith(p)`. -/
def pyEndsWith (s p : String) : Bool :=
  p.toList.isSuffixOf s.toList

/-- Auxiliary for substring containment: does `needle` occur in `hay`? -/
def subListAux (needle : List Char) : List Char → Bool
  | [] => needle.isEmpty
  | c :: t => needle.isPrefixOf (c :: t) || subListAux needle t

/-- Python `sub in s` (substring containment). -/
def strContains (s sub : String) : Bool :=
  subListAux sub.toList s.toList

/-- Numeric value of an ASCII digit character. -/
def digitVal (c : Char) : Nat := c.toNat - 48

/-- Value of a list of ASCII digit characters, most significant first. -/
def natOfDigits (cs : List Char) : Nat :=
  cs.foldl (fun n c => n * 10 + digitVal c) 0

/-! Section: TimestampScanner: `LogExtractor.TIMESTAMP_PATTERN` matching

The pattern is `\d{4}-\d{2}-\d{2} \d{2}:\d{2}:\d{2}`; the source records
only the first (leftmost) match of each line. -/

/-- Does the timestamp pattern match at the head of `cs`?  If so, return the
19 matched characters as a string. -/
def tsMatchAt : List Char → Option String
  | y1 :: y2 :: y3 :: y4 :: q1 :: o1 :: o2 :: q2 :: d1 :: d2 :: sp :: h1 :: h2 :: q3 :: n1 :: n2 :: q4 :: s1 :: s2 :: _ =>
    if y1.isDigit && y2.isDigit && y3.isDigit && y4.isDigit && q1 = '-' &&
       o1.isDigit && o2.isDigit && q2 = '-' && d1.isDigit && d2.isDigit &&
       sp = ' ' && h1.isDigit && h2.isDigit && q3 = ':' && n1.isDigit &&
       n2.isDigit && q4 = ':' && s1.isDigit && s2.isDigit then
      some (String.mk [y1, y2, y3, y4, q1, o1, o2, q2, d1, d2, sp, h1, h2, q3, n1, n2, q4, s1, s2])
    else
      none
  | _ => none

/-- Leftmost match of the timestamp pattern in a character list. -/
def findTSAux (cs : List Char) : Option String :=
  match tsMatchAt cs with
  | some t => some t
  | none =>
    match cs with
    | [] => none
    | _ :: rest => findTSAux rest

/-- Leftmost match of the timestamp pattern in a line (the only match the
source keeps, due to the `break` after the first `findall` result). -/
def findFirstTS (line : String) : Option String :=
  findTSAux line.toList

/-- One timestamp record, as built by `LogExtractor.extract_timestamps`. -/
structure TSRecord where
  timestamp : String
  line_number : Nat
  full_line : String
deriving Repr, DecidableEq

/-- The exact sentinel suffix checked for the emoji-request message. -/
def emojiSentinel : String :=
  "Last user message: [TextRaw(text=\x27Add message with emojis to the app to make it more fun\x27)]"

/-- Scanner state accumulated by `extract_timestamps` over the lines. -/
structure ScanState where
  timestamps : List TSRecord
  assertion_error : Bool
  emoji_message : Bool
  deployed_message : Bool
deriving Repr, DecidableEq

/-- The per-line loop of `LogExtractor.extract_timestamps`, starting at
line number `n`.  The `elif` of the source makes the deployed check
conditional on the assertion-error check failing on that line. -/
def scanLines (n : Nat) : List String → ScanState
  | [] => ⟨[], false, false, false⟩
  | line :: rest =>
    let st := scanLines (n + 1) rest
    let stripped := pyStrip line
    let ae := pyStartsWith stripped "AssertionError"
    let dep := !ae && pyStartsWith stripped "App is running on"
    let em := pyEndsWith stripped emojiSentinel
    let ts :=
      match findFirstTS line with
      | some t => { timestamp := t, line_number := n, full_line := stripped } :: st.timestamps
      | none => st.timestamps
    ⟨ts, ae || st.assertion_error, em || st.emoji_message, dep || st.deployed_message⟩

/-- Model of `LogExtractor.extract_timestamps`: returns the timestamp records, the
`deployed_message` flag, and `assertion_error and emoji_message`. -/
def extract_timestamps (lines : List String) : List TSRecord × Bool × Bool :=
  let st := scanLines 1 lines
  (st.timestamps, st.deployed_message, st.assertion_error && st.emoji_message)

/-! Section: TokenUsageScanner: `LogExtractor.TOKEN_PATTERN` matching

The pattern is
`Provider: ([^|]+) \| Model: ([^|]+) \| Input tokens: (\d+) \| Output tokens: (\d+) \| Total tokens: (\d+)`
compiled with `re.IGNORECASE` and applied with `.search` (leftmost match).
Because a `[^|]+` group cannot cross a `|` and the following literal pipes
and spaces are not digits, the regex backtracking is deterministic: each
group is the maximal run minus the single mandatory space before the pipe,
and each digit group is the maximal digit run. -/

/-- Case-insensitive literal match (the literal is given lowercased);
returns the remaining characters. -/
def ciLit : List Char → List Char → Option (List Char)
  | [], cs => some cs
  | _ :: _, [] => none
  | l :: ls, c :: cs => if c.toLower = l then ciLit ls cs else none

/-- Match `([^|]+) \| <lit>`: a nonempty pipe-free group followed by a
space, a pipe, and the (lowercased, case-insensitive) literal `lit`
(which itself starts after one space).  Returns the group (raw, untrimmed)
and the remainder. -/
def groupThen (lit : List Char) (cs : List Char) : Option (String × List Char) :=
  let run := cs.takeWhile (fun c => c ≠ '|')
  match cs.drop run.length with
  | '|' :: rest =>
    if run.getLast? = some ' ' ∧ run.dropLast ≠ [] then
      (ciLit (' ' :: lit) rest).map (fun r => (String.mk run.dropLast, r))
    else none
  | _ => none

/-- Match `(\d+) \| <lit>`: a nonempty digit group followed by a space, a
pipe and the (lowercased) literal `lit`.  Returns the numeric value and the
remainder. -/
def digitsThen (lit : List Char) (cs : List Char) : Option (Nat × List Char) :=
  let run := cs.takeWhile Char.isDigit
  if run = [] then none
  else (ciLit (' ' :: '|' :: ' ' :: lit) (cs.drop run.length)).map
    (fun r => (natOfDigits run, r))

/-- Match a final `(\d+)` (anything may follow). -/
def digitsEnd (cs : List Char) : Option Nat :=
  let run := cs.takeWhile Char.isDigit
  if run = [] then none else some (natOfDigits run)

/-- One successful match of `TOKEN_PATTERN` (groups 1-5). -/
structure TokMatch where
  provider : String
  model : String
  input_tokens : Nat
  output_tokens : Nat
  total_tokens : Nat
deriving Repr, DecidableEq

/-- Try to match `TOKEN_PATTERN` at the head of `cs`. -/
def tokenMatchAt (cs : List Char) : Option TokMatch := do
  let rest ← ciLit "provider: ".toList cs
  let (prov, rest) ← groupThen "model: ".toList rest
  let (modl, rest) ← groupThen "input tokens: ".toList rest
  let (inp, rest) ← digitsThen "output tokens: ".toList rest
  let (out, rest) ← digitsThen "total tokens: ".toList rest
  let tot ← digitsEnd rest
  some ⟨prov, modl, inp, out, tot⟩

/-- Leftmost match of `TOKEN_PATTERN` (the semantics of `.search`). -/
def tokenSearchAux (cs : List Char) : Option TokMatch :=
  match tokenMatchAt cs with
  | some m => some m
  | none =>
    match cs with
    | [] => none
    | _ :: rest => tokenSearchAux rest

/-- Model of `TOKEN_PATTERN.search(line)`. -/
def tokenSearch (line : String) : Option TokMatch :=
  tokenSearchAux line.toList

/-- Per-provider accumulator of `extract_provider_token_data`. -/
structure ProviderUsage where
  input_tokens : Nat
  output_tokens : Nat
  total_tokens : Nat
  api_calls : Nat
deriving Repr, DecidableEq

/-- Update the provider dictionary for one matching line: the first entry
with key `p` is updated in place, or a fresh entry is appended (Python
dict insertion-order semantics over an association list). -/
def bumpProv : List (String × ProviderUsage) → String → Nat → Nat → Nat → List (String × ProviderUsage)
  | [], p, i, o, t => [(p, ⟨i, o, t, 1⟩)]
  | (q, u) :: rest, p, i, o, t =>
    if q = p then
      (q, ⟨u.input_tokens + i, u.output_tokens + o, u.total_tokens + t, u.api_calls + 1⟩) :: rest
    else
      (q, u) :: bumpProv rest p i o t

/-- The line loop of `LogExtractor.extract_provider_token_data`. -/
def scanTokens (acc : List (String × ProviderUsage)) : List String → List (String × ProviderUsage)
  | [] => acc
  | line :: rest =>
    let acc' :=
      match tokenSearch line with
      | some m => bumpProv acc (pyStrip m.provider) m.input_tokens m.output_tokens m.total_tokens
      | none => acc
    scanTokens acc' rest

/-- Model of `LogExtractor.extract_provider_token_data`. -/
def extract_provider_token_data (lines : List String) : List (String × ProviderUsage) :=
  scanTokens [] lines

/-! Section: DurationCalculator: `strptime` model and `_calculate_duration`

`datetime.strptime(s, '%Y-%m-%d %H:%M:%S')` is modelled after CPython's
`_strptime`: `%Y` is exactly four digits; `%m`, `%d`, `%H`, `%M`, `%S`
accept one or two digits (ordered alternation, two-digit branch first —
since every literal following a field is a non-digit, the greedy choice is
exact); a space in the format matches one or more whitespace characters;
the whole string must be consumed; finally the `datetime` constructor
validates the calendar (year at least 1, day within the month, seconds up
to 59 — a 60/61 leap second passes the regex but is rejected by the
constructor, hence yields `None` either way). -/

/-- A parsed wall-clock timestamp. -/
structure PyDateTime where
  year : Nat
  month : Nat
  day : Nat
  hour : Nat
  minute : Nat
  second : Nat
deriving Repr, DecidableEq

/-- Exactly four digits (the `%Y` field). -/
def parse4 : List Char → Option (Nat × List Char)
  | a :: b :: c :: d :: rest =>
    if a.isDigit && b.isDigit && c.isDigit && d.isDigit then
      some ((((digitVal a * 10 + digitVal b) * 10 + digitVal c) * 10 + digitVal d), rest)
    else none
  | _ => none

/-- A two-digit value satisfying `two`, else a one-digit value satisfying
`one` (the ordered alternation of `_strptime` field regexes). -/
def parse21 (two one : Nat → Bool) : List Char → Option (Nat × List Char)
  | a :: b :: rest =>
    if a.isDigit && b.isDigit && two (digitVal a * 10 + digitVal b) then
      some (digitVal a * 10 + digitVal b, rest)
    else if a.isDigit && one (digitVal a) then
      some (digitVal a, b :: rest)
    else none
  | [a] => if a.isDigit && one (digitVal a) then some (digitVal a, []) else none
  | [] => none

/-- One mandatory literal character. -/
def litChar (c : Char) : List Char → Option (List Char)
  | d :: rest => if d = c then some rest else none
  | [] => none

/-- One-or-more whitespace characters (a space in a `strptime` format). -/
def ws1 : List Char → Option (List Char)
  | c :: rest => if isPySpace c then some (rest.dropWhile isPySpace) else none
  | [] => none

/-- Gregorian leap year. -/
def isLeapYear (y : Nat) : Bool :=
  y % 4 = 0 && (y % 100 ≠ 0 || y % 400 = 0)

/-- Days in a month of a given year. -/
def daysInMonth (y m : Nat) : Nat :=
  if m = 2 then (if isLeapYear y then 29 else 28)
  else if m = 4 ∨ m = 6 ∨ m = 9 ∨ m = 11 then 30
  else 31

/-- Model of `datetime.strptime(s, '%Y-%m-%d %H:%M:%S')`, `None` on `ValueError`. -/
def parseTimestamp (s : String) : Option PyDateTime := do
  let (y, cs) ← parse4 s.toList
  let cs ← litChar '-' cs
  let (mo, cs) ← parse21 (fun v => 1 ≤ v && v ≤ 12) (fun v => 1 ≤ v) cs
  let cs ← litChar '-' cs
  let (d, cs) ← parse21 (fun v => 1 ≤ v && v ≤ 31) (fun v => 1 ≤ v) cs
  let cs ← ws1 cs
  let (h, cs) ← parse21 (fun v => v ≤ 23) (fun _ => true) cs
  let cs ← litChar ':' cs
  let (mi, cs) ← parse21 (fun v => v ≤ 59) (fun _ => true) cs
  let cs ← litChar ':' cs
  let (se, cs) ← parse21 (fun v => v ≤ 59) (fun _ => true) cs
  if cs = [] ∧ 1 ≤ y ∧ d ≤ daysInMonth y mo then
    some ⟨y, mo, d, h, mi, se⟩
  else none

/-- Days before January 1 of year `y` in the proleptic Gregorian calendar
(CPython `datetime._days_before_year`). -/
def daysBeforeYear (y : Nat) : Nat :=
  let n := y - 1
  n * 365 + n / 4 - n / 100 + n / 400

/-- Days before the first of month `m` in year `y`. -/
def daysBeforeMonth (y m : Nat) : Nat :=
  (List.range (m - 1)).foldl (fun acc i => acc + daysInMonth y (i + 1)) 0

/-- Model of `datetime.toordinal()`: January 1 of year 1 is day 1. -/
def toOrdinal (dt : PyDateTime) : Nat :=
  daysBeforeYear dt.year + daysBeforeMonth dt.year dt.month + dt.day

/-- Seconds on a linear time axis; differences agree with
`(end - start).total_seconds()` of CPython `datetime` subtraction. -/
def toSeconds (dt : PyDateTime) : Int :=
  (toOrdinal dt : Int) * 86400 + dt.hour * 3600 + dt.minute * 60 + dt.second

/-- Python `'{:02d}'.format(n)` (two-digit zero padding). -/
def pad2 (n : Int) : String :=
  if 0 ≤ n ∧ n < 10 then "0" ++ toString n else toString n

/-- Model of `LogExtractor._calculate_duration`: parse both strings, floor the
difference in seconds, `divmod` by 60 (floor division, as in Python) and
render `f"{minutes}min {seconds:02d}sec"`; any `ValueError` is caught and
yields `None`. -/
def calculate_duration (start_time end_time : String) : Option String :=
  match parseTimestamp start_time, parseTimestamp end_time with
  | some s, some e =>
    let total : Int := toSeconds e - toSeconds s
    let minutes : Int := total / 60
    let seconds : Int := total % 60
    some (toString minutes ++ "min " ++ pad2 seconds ++ "sec")
  | _, _ => none

/-! Section: LogExtractor.extract_log_data -/

/-- The per-file record returned by `extract_log_data` (dictionary keys in
source order).  Fields that the source sets to Python `None` are `none`. -/
structure FileResult where
  start_time : Option String
  end_time : Option String
  duration : Option String
  build_status : Option String
  post_build_error : Option Bool
  token_data : Option (List (String × ProviderUsage))
deriving Repr, DecidableEq

/-- The container-teardown marker tested with `in` on the last record. -/
def dockerMarker : String := "Stopping Docker containers"

/-- Model of `LogExtractor.extract_log_data`.  With no timestamp record it returns
the all-`none` record (including `build_status = None`).  Otherwise, if the
last record's stripped line contains the teardown marker that record is
popped; the source then evaluates `timestamps[0]` and `timestamps[-1]`,
which raises an uncaught `IndexError` when the pop emptied the list —
modelled by the `Except.error` branch. -/
def extract_log_data (lines : List String) : Except String FileResult :=
  let scanned := extract_timestamps lines
  let timestamps := scanned.1
  let deployed := scanned.2.1
  let post_build_error := scanned.2.2
  let token_data := extract_provider_token_data lines
  match timestamps.getLast? with
  | none => Except.ok ⟨none, none, none, none, none, none⟩
  | some lastRec =>
    let ts1 := if strContains lastRec.full_line dockerMarker then timestamps.dropLast else timestamps
    match ts1.head?, ts1.getLast? with
    | some firstRec, some endRec =>
      Except.ok ⟨some firstRec.timestamp, some endRec.timestamp,
        calculate_duration firstRec.timestamp endRec.timestamp,
        some (if deployed && !post_build_error then "success" else "fail"),
        some post_build_error, some token_data⟩
    | _, _ => Except.error "IndexError: list index out of range"

/-! Section: FolderAggregator: `process_folder_logs`

The filesystem is passed explicitly: a folder is `none` when
`os.path.exists` fails, otherwise the list of its entries (name plus file
lines).  CSV emission is modelled by a boolean "a summary file was
written"; the in-memory table is the row list. -/

/-- Python `os.path.splitext(p)[0]` for a base name (no separator): split
at the last dot unless every character before it is itself a dot. -/
def lastDotIdx : List Char → Option Nat
  | [] => none
  | c :: rest =>
    match lastDotIdx rest with
    | some i => some (i + 1)
    | none => if c = '.' then some 0 else none

/-- The extension-stripped root of a file name. -/
def splitextRoot (p : String) : String :=
  match lastDotIdx p.toList with
  | none => p
  | some i => if (p.toList.take i).all (fun c => c = '.') then p else String.mk (p.toList.take i)

/-- Python `str.split(sep)` for a one-character separator (keeps empty
pieces). -/
def splitChars (sep : Char) : List Char → List (List Char)
  | [] => [[]]
  | c :: rest =>
    match splitChars sep rest with
    | [] => [[c]]
    | g :: gs => if c = sep then [] :: g :: gs else (c :: g) :: gs

/-- Python `int(s)` for a split token: optional surrounding whitespace, an
optional sign, then one or more ASCII digits; anything else raises
`ValueError` (here: `none`). -/
def parsePyInt (s : String) : Option Int :=
  let cs := pyStripList s.toList
  match cs with
  | '+' :: ds => if ds ≠ [] ∧ ds.all Char.isDigit then some (natOfDigits ds : Int) else none
  | '-' :: ds => if ds ≠ [] ∧ ds.all Char.isDigit then some (-(natOfDigits ds : Int)) else none
  | ds => if ds ≠ [] ∧ ds.all Char.isDigit then some (natOfDigits ds : Int) else none

/-- Model of `int(os.path.splitext(filename)[0].split('_')[1])` with
`IndexError`/`ValueError` caught to `None` (source lines 176-179). -/
def get_prompt_id (filename : String) : Option Int :=
  match ((splitChars '_' (splitextRoot filename).toList).map String.mk).get? 1 with
  | some tok => parsePyInt tok
  | none => none

/-- Python `str.lower()` (ASCII folding). -/
def pyLower (s : String) : String :=
  String.mk (s.toList.map Char.toLower)

/-- Python `str.replace(' ', '_')`. -/
def spaceToUnderscore (s : String) : String :=
  String.mk (s.toList.map (fun c => if c = ' ' then '_' else c))

/-- Flattened column base name for a provider key. -/
def provColBase (p : String) : String :=
  spaceToUnderscore (pyLower p)

/-- The flattened per-provider columns, in dictionary iteration order with
the inner keys in insertion order. -/
def flattenTokens : List (String × ProviderUsage) → List (String × Nat)
  | [] => []
  | (p, u) :: rest =>
    (provColBase p ++ "_input_tokens", u.input_tokens) ::
    (provColBase p ++ "_output_tokens", u.output_tokens) ::
    (provColBase p ++ "_total_tokens", u.total_tokens) ::
    (provColBase p ++ "_api_calls", u.api_calls) ::
    flattenTokens rest

/-- Sum of `api_calls` over all providers (the `total_api_calls` column). -/
def totalApiCalls (td : List (String × ProviderUsage)) : Nat :=
  (td.map (fun pu => pu.2.api_calls)).sum

/-- One flattened output row of the folder summary. -/
structure Row where
  prompt_id : Option Int
  log_file : String
  start_time : Option String
  end_time : Option String
  gen_time : Option String
  build_status : Option String
  post_build_error : Option Bool
  token_cols : List (String × Nat)
  total_api_calls : Nat
deriving Repr, DecidableEq

/-- Build one summary row from a file name and its `FileResult` (source
lines 175-208).  When `token_data` is `None` the `isinstance` guard skips
flattening and `total_api_calls` stays 0. -/
def buildRow (filename : String) (r : FileResult) : Row :=
  let flat :=
    match r.token_data with
    | none => ([], 0)
    | some td => (flattenTokens td, totalApiCalls td)
  { prompt_id := get_prompt_id filename
    log_file := filename
    start_time := r.start_time
    end_time := r.end_time
    gen_time := r.duration
    build_status := r.build_status
    post_build_error := r.post_build_error
    token_cols := flat.1
    total_api_calls := flat.2 }

/-- One file of a folder: base name and contents (as lines). -/
structure LogFile where
  name : String
  lines : List String
deriving Repr, DecidableEq

/-- Membership for `glob.glob(os.path.join(folder, "*.log"))`: the name ends
in `.log` and, as for any glob pattern, a leading dot is not matched. -/
def isLogName (name : String) : Bool :=
  !(pyStartsWith name ".") && pyEndsWith name ".log"

/-- Lexicographic comparison by code point, as Python `sorted` on the
full paths (which share the folder prefix, so the base names decide). -/
def lexLe : List Char → List Char → Bool
  | [], _ => true
  | _ :: _, [] => false
  | a :: as, b :: bs =>
    if a.toNat < b.toNat then true
    else if b.toNat < a.toNat then false
    else lexLe as bs

/-- Name order on folder entries. -/
def nameLe (a b : LogFile) : Bool :=
  lexLe a.name.toList b.name.toList

/-- Insert into a name-sorted list (stable: an element coming earlier in
the input never moves past an equal-keyed element). -/
def insertByName (f : LogFile) : List LogFile → List LogFile
  | [] => [f]
  | g :: gs => if nameLe f g then f :: g :: gs else g :: insertByName f gs

/-- Stable insertion sort by name (the behaviour of Python `sorted`). -/
def sortByName : List LogFile → List LogFile
  | [] => []
  | f :: fs => insertByName f (sortByName fs)

/-- The `.log` entries of a folder in `sorted` order. -/
def sortedLogs (entries : List LogFile) : List LogFile :=
  sortByName (entries.filter (fun f => isLogName f.name))

/-- Left-to-right effectful map over `Except` (the per-file loop body: the
first uncaught exception aborts the whole folder run). -/
def exMapM (f : α → Except String β) : List α → Except String (List β)
  | [] => Except.ok []
  | a :: as =>
    match f a with
    | Except.error e => Except.error e
    | Except.ok b =>
      match exMapM f as with
      | Except.error e => Except.error e
      | Except.ok bs => Except.ok (b :: bs)

/-- Model of `process_folder_logs`: a `none` folder (missing path) gives an empty
table and no file write; no `.log` entries likewise; otherwise every file
is processed in sorted name order and the summary CSV is written.  The
boolean reports whether a summary file was written. -/
def process_folder_logs (folder : Option (List LogFile)) : Except String (List Row × Bool) :=
  match folder with
  | none => Except.ok ([], false)
  | some entries =>
    match sortedLogs entries with
    | [] => Except.ok ([], false)
    | _ :: _ =>
      (exMapM (fun f => (extract_log_data f.lines).map (buildRow f.name)) (sortedLogs entries)).map
        (fun rows => (rows, true))

/-- Model of `process_logs`: a `none` root (missing path) gives an empty table;
otherwise every subfolder is aggregated, each per-folder table is tagged
with the subfolder name as a `config` column, and the tables are
concatenated. -/
def process_logs (root : Option (List (String × List LogFile))) : Except String (List (Row × String)) :=
  match root with
  | none => Except.ok []
  | some subs =>
    (exMapM (fun sub =>
        (process_folder_logs (some sub.2)).map
          (fun pr => pr.1.map (fun row => (row, sub.1)))) subs).map List.flatten

/-! Section: Auxiliary definitions for the token-accumulation characterisation -/

/-- First binding of a provider key in the dictionary. -/
def lookupProv (p : String) : List (String × ProviderUsage) → Option ProviderUsage
  | [] => none
  | (q, u) :: rest => if q = p then some u else lookupProv p rest

/-- The matches of `TOKEN_PATTERN` over the lines whose trimmed provider
group equals `p` (one per matching line, in line order). -/
def lineMatchesFor (p : String) (lines : List String) : List TokMatch :=
  (lines.filterMap tokenSearch).filter (fun m => pyStrip m.provider == p)

/-- The all-zero bucket a provider starts from. -/
def pzero : ProviderUsage := ⟨0, 0, 0, 0⟩

/-- Accumulate one matching line into a bucket. -/
def paddM (u : ProviderUsage) (i o t : Nat) : ProviderUsage :=
  ⟨u.input_tokens + i, u.output_tokens + o, u.total_tokens + t, u.api_calls + 1⟩

/-- A bucket plus the componentwise sums of a list of matches. -/
def addSums (u : ProviderUsage) (ms : List TokMatch) : ProviderUsage :=
  ⟨u.input_tokens + (ms.map TokMatch.input_tokens).sum,
   u.output_tokens + (ms.map TokMatch.output_tokens).sum,
   u.total_tokens + (ms.map TokMatch.total_tokens).sum,
   u.api_calls + ms.length⟩

/-- How a provider's lookup result evolves over a list of further matches. -/
def mergeOpt (o : Option ProviderUsage) (ms : List TokMatch) : Option ProviderUsage :=
  match ms with
  | [] => o
  | _ :: _ => some (addSums (o.getD pzero) ms)

/-! Section: Demo inputs used by the witness theorems -/

/-- A small successful build log. -/
def demoPromptLines : List String :=
  ["2025-07-15 21:09:00 build start",
   "App is running on 8080",
   "Provider: Anthropic | Model: claude-3 | Input tokens: 100 | Output tokens: 50 | Total tokens: 150",
   "2025-07-15 21:14:03 build end"]

/-- Its extraction result. -/
def demoFileResult : FileResult :=
  ⟨some "2025-07-15 21:09:00", some "2025-07-15 21:14:03", some "5min 03sec",
   some "success", some false, some [("Anthropic", ⟨100, 50, 150, 1⟩)]⟩

/-- A log ending in a container-teardown line. -/
def demoDockerLines : List String :=
  ["2025-07-15 21:09:00 build start",
   "2025-07-15 21:14:03 App is running on 8080",
   "2025-07-15 21:14:05 Stopping Docker containers"]

/-- A folder listing (deliberately unsorted, with one non-log entry). -/
def demoEntries : List LogFile :=
  [⟨"summary.log", ["2025-07-15 21:00:00 lone timestamp"]⟩,
   ⟨"prompt_7.log", demoPromptLines⟩,
   ⟨"notes.txt", ["not a log"]⟩]

/-- The folder summary rows for `demoEntries`, in sorted-name order. -/
def demoRows : List Row :=
  [⟨some 7, "prompt_7.log", some "2025-07-15 21:09:00", some "2025-07-15 21:14:03",
    some "5min 03sec", some "success", some false,
    [("anthropic_input_tokens", 100), ("anthropic_output_tokens", 50),
     ("anthropic_total_tokens", 150), ("anthropic_api_calls", 1)], 1⟩,
   ⟨none, "summary.log", some "2025-07-15 21:00:00", some "2025-07-15 21:00:00",
    some "0min 00sec", some "fail", some false, [], 0⟩]

/-- A root with one folder without logs and one with `demoEntries`. -/
def demoSubs : List (String × List LogFile) :=
  [("empty", [⟨"readme.txt", ["no logs here"]⟩]), ("full", demoEntries)]

/-- The combined tree table for `demoSubs`. -/
def demoTagged : List (Row × String) :=
  demoRows.map (fun r => (r, "full"))

/-- The last timestamp record of `demoDockerLines`. -/
def demoDockerLast : TSRecord :=
  ⟨"2025-07-15 21:14:05", 3, "2025-07-15 21:14:05 Stopping Docker containers"⟩

/-- The extraction result of `demoDockerLines` (the teardown record is
excluded from the `end_time` computation). -/
def demoDockerResult : FileResult :=
  ⟨some "2025-07-15 21:09:00", some "2025-07-15 21:14:03", some "5min 03sec",
   some "fail", some false, some []⟩

/-! Section: Helper lemmas -/

/-- An `Except.map` hitting `ok` comes from an `ok`. -/
theorem except_map_ok {α β : Type} {g : α → β} {e : Except String α} {y : β}
    (h : e.map g = Except.ok y) : ∃ x, e = Except.ok x ∧ y = g x := by
  cases e with
  | error msg => simp [Except.map] at h
  | ok x => exact ⟨x, rfl, by simpa [Except.map] using h.symm⟩

/-! Section: Claim C1 -/

/-- Claim C1 (amended): for a file with zero timestamp-bearing lines,
`extract_log_data` returns the record with `start_time`, `end_time`,
`duration` all `None` — and `build_status` is `None` as well (not
`'fail'`); `post_build_error` and `token_data` are also `None`. -/
theorem claim_C1 (lines : List String) (h : (extract_timestamps lines).1 = []) :
    extract_log_data lines = Except.ok ⟨none, none, none, none, none, none⟩ := by
  simp [extract_log_data, h]

/-- Claim C1 counterexample: `["hello"]` has zero timestamp-bearing lines,
and the resulting `build_status` is `None`, not `'fail'` as claimed. -/
theorem claim_C1_counterexample :
    (extract_timestamps ["hello"]).1 = [] ∧
    Except.map FileResult.build_status (extract_log_data ["hello"]) = Except.ok none ∧
    Except.map FileResult.build_status (extract_log_data ["hello"]) ≠ Except.ok (some "fail") := by
  decide

/-- Witness for C1 at the concrete input `["hello"]`. -/
theorem claim_C1_witness :
    (extract_timestamps ["hello"]).1 = [] ∧
    extract_log_data ["hello"] = Except.ok ⟨none, none, none, none, none, none⟩ :=
  ⟨by decide, claim_C1 ["hello"] (by decide)⟩

/-! Section: Claim C2 -/

/-- Claim C2 (code bug): a file whose only timestamp-bearing line contains
`Stopping Docker containers` makes `extract_log_data` pop its only record
and then evaluate `timestamps[0]`, raising an uncaught `IndexError` — so
the function does raise to its caller, aborting folder aggregation. -/
theorem claim_C2 :
    (extract_timestamps ["2025-07-15 21:14:05 Stopping Docker containers"]).1.length = 1 ∧
    extract_log_data ["2025-07-15 21:14:05 Stopping Docker containers"] =
      Except.error "IndexError: list index out of range" := by
  decide

/-! Section: Claim C5 -/

/-- Claim C5: when both timestamps parse, `_calculate_duration` renders
`f"{minutes}min {seconds:02d}sec"` with `0 ≤ seconds < 60`, and adding the
encoded duration `60*minutes + seconds` (in seconds) to the start instant
yields exactly the end instant. -/
theorem claim_C5 (a b : String) (da db : PyDateTime)
    (ha : parseTimestamp a = some da) (hb : parseTimestamp b = some db) :
    ∃ m s : Int,
      calculate_duration a b = some (toString m ++ "min " ++ pad2 s ++ "sec") ∧
      0 ≤ s ∧ s < 60 ∧
      toSeconds da + (60 * m + s) = toSeconds db := by
  refine ⟨(toSeconds db - toSeconds da) / 60, (toSeconds db - toSeconds da) % 60, ?_, ?_, ?_, ?_⟩
  · simp [calculate_duration, ha, hb]
  · exact Int.emod_nonneg _ (by norm_num)
  · exact Int.emod_lt_of_pos _ (by norm_num)
  · have h60 := Int.ediv_add_emod (toSeconds db - toSeconds da) 60
    omega

/-- Witness for C5 at two concrete parseable timestamps. -/
theorem claim_C5_witness :
    parseTimestamp "2025-07-15 21:09:00" = some ⟨2025, 7, 15, 21, 9, 0⟩ ∧
    parseTimestamp "2025-07-15 21:14:03" = some ⟨2025, 7, 15, 21, 14, 3⟩ ∧
    ∃ m s : Int,
      calculate_duration "2025-07-15 21:09:00" "2025-07-15 21:14:03" =
        some (toString m ++ "min " ++ pad2 s ++ "sec") ∧
      0 ≤ s ∧ s < 60 ∧
      toSeconds ⟨2025, 7, 15, 21, 9, 0⟩ + (60 * m + s) = toSeconds ⟨2025, 7, 15, 21, 14, 3⟩ :=
  ⟨by decide, by decide, claim_C5 _ _ _ _ (by decide) (by decide)⟩

/-! Section: Claim C7 -/

/-- Claim C7: if either input fails to parse under the fixed format,
`_calculate_duration` returns `None` (and, being total here, never
raises — the source catches every exception in this function). -/
theorem claim_C7 (a b : String)
    (h : parseTimestamp a = none ∨ parseTimestamp b = none) :
    calculate_duration a b = none := by
  rcases h with h | h
  · cases hb : parseTimestamp b <;> simp [calculate_duration, h, hb]
  · cases ha : parseTimestamp a <;> simp [calculate_duration, h, ha]

/-- Witness for C7 at a concrete unparseable start string. -/
theorem claim_C7_witness :
    (parseTimestamp "garbage" = none ∨ parseTimestamp "2025-01-01 00:00:00" = none) ∧
    calculate_duration "garbage" "2025-01-01 00:00:00" = none :=
  ⟨Or.inl (by decide), claim_C7 "garbage" "2025-01-01 00:00:00" (Or.inl (by decide))⟩

/-! Section: Flag characterisation for Claim C3 -/

/-- A line starting with `App is running on` cannot also start with
`AssertionError` (the source's `elif` is therefore no restriction). -/
theorem app_not_assert (s : String) (h : pyStartsWith s "App is running on" = true) :
    pyStartsWith s "AssertionError" = false := by
  by_contra h2
  rw [Bool.not_eq_false, pyStartsWith, List.isPrefixOf_iff_prefix] at h2
  rw [pyStartsWith, List.isPrefixOf_iff_prefix] at h
  have hlen : ("AssertionError".toList).length ≤ ("App is running on".toList).length := by decide
  have hpre := List.prefix_of_prefix_length_le h2 h hlen
  rw [← List.isPrefixOf_iff_prefix] at hpre
  exact absurd hpre (by decide)

/-- The `deployed_message` flag is an existential over the lines. -/
theorem scanLines_deployed (lines : List String) : ∀ n,
    (scanLines n lines).deployed_message =
      lines.any (fun l => pyStartsWith (pyStrip l) "App is running on") := by
  induction lines with
  | nil => intro n; rfl
  | cons l rest ih =>
    intro n
    simp only [scanLines, List.any_cons, ih]
    cases hd : pyStartsWith (pyStrip l) "App is running on"
    · simp
    · simp [app_not_assert _ hd]

/-- The `assertion_error` flag is an existential over the lines. -/
theorem scanLines_assertion (lines : List String) : ∀ n,
    (scanLines n lines).assertion_error =
      lines.any (fun l => pyStartsWith (pyStrip l) "AssertionError") := by
  induction lines with
  | nil => intro n; rfl
  | cons l rest ih => intro n; simp only [scanLines, List.any_cons, ih]

/-- The `emoji_message` flag is an existential over the lines. -/
theorem scanLines_emoji (lines : List String) : ∀ n,
    (scanLines n lines).emoji_message =
      lines.any (fun l => pyEndsWith (pyStrip l) emojiSentinel) := by
  induction lines with
  | nil => intro n; rfl
  | cons l rest ih => intro n; simp only [scanLines, List.any_cons, ih]

/-! Section: Inversion of a successful `extract_log_data` -/

/-- Destructuring a successful extraction with at least one timestamp
record: the returned fields come from the head and last of the (possibly
popped) record list, and `build_status` from the scanner flags. -/
theorem extract_ok_inv (lines : List String) (r : FileResult) (lastRec : TSRecord)
    (hl : (extract_timestamps lines).1.getLast? = some lastRec)
    (h : extract_log_data lines = Except.ok r) :
    ∃ firstRec endRec : TSRecord,
      (if strContains lastRec.full_line dockerMarker then (extract_timestamps lines).1.dropLast
       else (extract_timestamps lines).1).head? = some firstRec ∧
      (if strContains lastRec.full_line dockerMarker then (extract_timestamps lines).1.dropLast
       else (extract_timestamps lines).1).getLast? = some endRec ∧
      r = ⟨some firstRec.timestamp, some endRec.timestamp,
           calculate_duration firstRec.timestamp endRec.timestamp,
           some (if (extract_timestamps lines).2.1 && !(extract_timestamps lines).2.2
                 then "success" else "fail"),
           some (extract_timestamps lines).2.2,
           some (extract_provider_token_data lines)⟩ := by
  simp only [extract_log_data, hl] at h
  cases hm : strContains lastRec.full_line dockerMarker <;> simp only [hm] at h ⊢
  · simp only [Bool.false_eq_true, if_false] at h ⊢
    cases hh : (extract_timestamps lines).1.head? <;> rw [hh, hl] at h <;> dsimp only at h
    · exact absurd h (by simp)
    · rename_i firstRec
      refine ⟨firstRec, lastRec, rfl, hl, ?_⟩
      injection h with h
      exact h.symm
  · simp only [if_true] at h ⊢
    cases hh : (extract_timestamps lines).1.dropLast.head? <;> rw [hh] at h
    · cases hg : (extract_timestamps lines).1.dropLast.getLast? <;> rw [hg] at h <;>
        dsimp only at h <;> exact absurd h (by simp)
    · cases hg : (extract_timestamps lines).1.dropLast.getLast? <;> rw [hg] at h <;> dsimp only at h
      · exact absurd h (by simp)
      · rename_i firstRec endRec
        refine ⟨firstRec, endRec, rfl, rfl, ?_⟩
        injection h with h
        exact h.symm

/-! Section: Claim C3 -/

/-- Claim C3: with at least one timestamp record, `build_status` is
`'success'` iff some trimmed line starts with `App is running on` and it is
not the case that both some trimmed line starts with `AssertionError` and
some trimmed line ends with the emoji-request sentinel; otherwise it is
`'fail'`. -/
theorem claim_C3 (lines : List String) (r : FileResult)
    (h : extract_log_data lines = Except.ok r)
    (hne : (extract_timestamps lines).1 ≠ []) :
    (r.build_status = some "success" ∨ r.build_status = some "fail") ∧
    (r.build_status = some "success" ↔
      (lines.any (fun l => pyStartsWith (pyStrip l) "App is running on") = true ∧
       ¬(lines.any (fun l => pyStartsWith (pyStrip l) "AssertionError") = true ∧
         lines.any (fun l => pyEndsWith (pyStrip l) emojiSentinel) = true))) := by
  obtain ⟨lastRec, hl⟩ : ∃ x, (extract_timestamps lines).1.getLast? = some x := by
    cases hg : (extract_timestamps lines).1.getLast? with
    | none => exact absurd (List.getLast?_eq_none_iff.mp hg) hne
    | some x => exact ⟨x, rfl⟩
  obtain ⟨f1, e1, _, _, hr⟩ := extract_ok_inv lines r lastRec hl h
  subst hr
  have h21 : (extract_timestamps lines).2.1 = (scanLines 1 lines).deployed_message := rfl
  have h22 : (extract_timestamps lines).2.2 =
      ((scanLines 1 lines).assertion_error && (scanLines 1 lines).emoji_message) := rfl
  simp only [h21, h22, scanLines_deployed lines 1, scanLines_assertion lines 1,
    scanLines_emoji lines 1]
  cases hA : lines.any (fun l => pyStartsWith (pyStrip l) "App is running on") <;>
    cases hB : lines.any (fun l => pyStartsWith (pyStrip l) "AssertionError") <;>
      cases hC : lines.any (fun l => pyEndsWith (pyStrip l) emojiSentinel) <;> decide

/-- Witness for C3 at `demoPromptLines` (a deployed, error-free log). -/
theorem claim_C3_witness :
    extract_log_data demoPromptLines = Except.ok demoFileResult ∧
    (extract_timestamps demoPromptLines).1 ≠ [] ∧
    ((demoFileResult.build_status = some "success" ∨ demoFileResult.build_status = some "fail") ∧
     (demoFileResult.build_status = some "success" ↔
       (demoPromptLines.any (fun l => pyStartsWith (pyStrip l) "App is running on") = true ∧
        ¬(demoPromptLines.any (fun l => pyStartsWith (pyStrip l) "AssertionError") = true ∧
          demoPromptLines.any (fun l => pyEndsWith (pyStrip l) emojiSentinel) = true)))) :=
  ⟨by decide, by decide, claim_C3 demoPromptLines demoFileResult (by decide) (by decide)⟩

/-! Section: Claim C4 -/

/-- If the popped list still has a head, so does the original, with the
same value. -/
theorem head?_dropLast_eq {α : Type} (l : List α) (x : α)
    (h : l.dropLast.head? = some x) : l.head? = some x := by
  match l with
  | [] => simp at h
  | [a] => simp at h
  | a :: b :: t =>
    simp [List.dropLast] at h ⊢
    exact h

/-- Claim C4: `start_time` is the first record's timestamp; `end_time` is
the last record's timestamp unless the last record's line contains
`Stopping Docker containers`, in which case that record is discarded and
`end_time` comes from the previous timestamped line. -/
theorem claim_C4 (lines : List String) (r : FileResult) (lastRec : TSRecord)
    (hl : (extract_timestamps lines).1.getLast? = some lastRec)
    (h : extract_log_data lines = Except.ok r) :
    r.start_time = ((extract_timestamps lines).1.head?).map TSRecord.timestamp ∧
    (strContains lastRec.full_line dockerMarker = true →
      r.end_time = ((extract_timestamps lines).1.dropLast.getLast?).map TSRecord.timestamp) ∧
    (strContains lastRec.full_line dockerMarker = false →
      r.end_time = some lastRec.timestamp) := by
  obtain ⟨f1, e1, hh, hg, hr⟩ := extract_ok_inv lines r lastRec hl h
  subst hr
  cases hm : strContains lastRec.full_line dockerMarker <;> rw [hm] at hh hg <;>
    simp only [Bool.false_eq_true, if_false, if_true] at hh hg
  · refine ⟨?_, by simp, ?_⟩
    · rw [hh]; rfl
    · intro _
      rw [hl] at hg
      injection hg with hg
      rw [hg]
  · refine ⟨?_, ?_, by simp⟩
    · rw [head?_dropLast_eq _ _ hh]; rfl
    · intro _
      rw [hg]; rfl

/-- Witness for C4 at `demoDockerLines` (teardown line last). -/
theorem claim_C4_witness :
    (extract_timestamps demoDockerLines).1.getLast? = some demoDockerLast ∧
    extract_log_data demoDockerLines = Except.ok demoDockerResult ∧
    (demoDockerResult.start_time =
       ((extract_timestamps demoDockerLines).1.head?).map TSRecord.timestamp ∧
     (strContains demoDockerLast.full_line dockerMarker = true →
       demoDockerResult.end_time =
         ((extract_timestamps demoDockerLines).1.dropLast.getLast?).map TSRecord.timestamp) ∧
     (strContains demoDockerLast.full_line dockerMarker = false →
       demoDockerResult.end_time = some demoDockerLast.timestamp)) :=
  ⟨by decide, by decide,
   claim_C4 demoDockerLines demoDockerResult demoDockerLast (by decide) (by decide)⟩

/-! Section: Claim C6 -/

/-- Effect of one `bumpProv` on a lookup. -/
theorem lookup_bumpProv (p q : String) (i o t : Nat) :
    ∀ acc : List (String × ProviderUsage),
      lookupProv p (bumpProv acc q i o t) =
        if q = p then some (paddM ((lookupProv p acc).getD pzero) i o t)
        else lookupProv p acc := by
  intro acc
  induction acc with
  | nil =>
    by_cases hqp : q = p <;> simp [bumpProv, lookupProv, hqp, paddM, pzero]
  | cons x rest ih =>
    obtain ⟨y, u⟩ := x
    by_cases hyq : y = q
    · subst hyq
      by_cases hqp : y = p
      · subst hqp
        simp [bumpProv, lookupProv, paddM]
      · simp [bumpProv, lookupProv, hqp]
    · by_cases hyp : y = p
      · subst hyp
        have hqp : q ≠ y := fun he => hyq he.symm
        simp [bumpProv, lookupProv, hyq, hqp]
      · simp [bumpProv, lookupProv, hyq, hyp, ih]

/-- Invariant of the token-scanning loop: the lookup after scanning equals
the lookup before, merged with the sums over the remaining matching
lines. -/
theorem scanTokens_lookup (p : String) : ∀ (lines : List String) (acc : List (String × ProviderUsage)),
    lookupProv p (scanTokens acc lines) = mergeOpt (lookupProv p acc) (lineMatchesFor p lines) := by
  intro lines
  induction lines with
  | nil => intro acc; rfl
  | cons line rest ih =>
    intro acc
    simp only [scanTokens]
    cases hs : tokenSearch line with
    | none =>
      have hm : lineMatchesFor p (line :: rest) = lineMatchesFor p rest := by
        simp [lineMatchesFor, hs]
      rw [hm]; exact ih acc
    | some m =>
      by_cases hp : pyStrip m.provider = p
      · have hm : lineMatchesFor p (line :: rest) = m :: lineMatchesFor p rest := by
          simp [lineMatchesFor, hs, hp]
        rw [hm, ih]
        rw [lookup_bumpProv p (pyStrip m.provider) _ _ _ acc, if_pos hp]
        cases hms : lineMatchesFor p rest with
        | nil =>
          cases hacc : lookupProv p acc <;>
            simp [mergeOpt, addSums, paddM, pzero]
        | cons m0 ms0 =>
          cases hacc : lookupProv p acc <;>
            · simp [mergeOpt, addSums, paddM, pzero, ProviderUsage.mk.injEq]
              omega
      · have hm : lineMatchesFor p (line :: rest) = lineMatchesFor p rest := by
          simp [lineMatchesFor, hs, hp]
        rw [hm, ih]
        rw [lookup_bumpProv p (pyStrip m.provider) _ _ _ acc, if_neg hp]

/-- Claim C6: after scanning, a provider's bucket is exactly the
componentwise sum of the parsed values over the lines matching the token
pattern for that provider (`total_tokens` summed as parsed, never
recomputed), with `api_calls` the number of such lines; a provider with no
matching line has no bucket. -/
theorem claim_C6 (lines : List String) (p : String) :
    lookupProv p (extract_provider_token_data lines) =
      if lineMatchesFor p lines = [] then none
      else some ⟨((lineMatchesFor p lines).map TokMatch.input_tokens).sum,
                 ((lineMatchesFor p lines).map TokMatch.output_tokens).sum,
                 ((lineMatchesFor p lines).map TokMatch.total_tokens).sum,
                 (lineMatchesFor p lines).length⟩ := by
  rw [extract_provider_token_data, scanTokens_lookup p lines []]
  cases hms : lineMatchesFor p lines with
  | nil => rfl
  | cons m ms => simp [mergeOpt, lookupProv, addSums, pzero]

/-! Section: Order and permutation lemmas for the name sort -/

/-- Totality of `lexLe`. -/
theorem lexLe_total : ∀ a b : List Char, lexLe a b = true ∨ lexLe b a = true := by
  intro a
  induction a with
  | nil => intro b; left; rfl
  | cons x xs ih =>
    intro b
    cases b with
    | nil => right; rfl
    | cons y ys =>
      rcases Nat.lt_trichotomy x.toNat y.toNat with h | h | h
      · left; simp [lexLe, h]
      · have e1 : ¬ x.toNat < y.toNat := by omega
        have e2 : ¬ y.toNat < x.toNat := by omega
        rcases ih ys with hx | hx
        · left; simp [lexLe, e1, e2, hx]
        · right; simp [lexLe, e1, e2, hx]
      · right; simp [lexLe, h]

/-- Transitivity of `lexLe`. -/
theorem lexLe_trans : ∀ a b c : List Char,
    lexLe a b = true → lexLe b c = true → lexLe a c = true := by
  intro a
  induction a with
  | nil => intro b c _ _; rfl
  | cons x xs ih =>
    intro b c hab hbc
    cases b with
    | nil => simp [lexLe] at hab
    | cons y ys =>
      cases c with
      | nil => simp [lexLe] at hbc
      | cons z zs =>
        rcases Nat.lt_trichotomy x.toNat y.toNat with h1 | h1 | h1
        · rcases Nat.lt_trichotomy y.toNat z.toNat with h2 | h2 | h2
          · simp [lexLe, Nat.lt_trans h1 h2]
          · have h3 : x.toNat < z.toNat := by omega
            simp [lexLe, h3]
          · have e1 : ¬ y.toNat < z.toNat := by omega
            simp [lexLe, e1, h2] at hbc
        · have e1 : ¬ x.toNat < y.toNat := by omega
          have e2 : ¬ y.toNat < x.toNat := by omega
          simp [lexLe, e1, e2] at hab
          rcases Nat.lt_trichotomy y.toNat z.toNat with h2 | h2 | h2
          · have h3 : x.toNat < z.toNat := by omega
            simp [lexLe, h3]
          · have e3 : ¬ x.toNat < z.toNat := by omega
            have e4 : ¬ z.toNat < x.toNat := by omega
            have e5 : ¬ y.toNat < z.toNat := by omega
            have e6 : ¬ z.toNat < y.toNat := by omega
            simp [lexLe, e5, e6] at hbc
            simp [lexLe, e3, e4]
            exact ih ys zs hab hbc
          · have e5 : ¬ y.toNat < z.toNat := by omega
            simp [lexLe, e5, h2] at hbc
        · have e2 : ¬ x.toNat < y.toNat := by omega
          simp [lexLe, e2, h1] at hab

/-- Totality of `nameLe`. -/
theorem nameLe_total (a b : LogFile) : nameLe a b = true ∨ nameLe b a = true :=
  lexLe_total _ _

/-- Transitivity of `nameLe`. -/
theorem nameLe_trans (a b c : LogFile) (h1 : nameLe a b = true) (h2 : nameLe b c = true) :
    nameLe a c = true :=
  lexLe_trans _ _ _ h1 h2

/-- Insertion permutes to consing. -/
theorem insertByName_perm (f : LogFile) : ∀ l, (insertByName f l).Perm (f :: l) := by
  intro l
  induction l with
  | nil => exact List.Perm.refl _
  | cons g gs ih =>
    simp only [insertByName]
    by_cases h : nameLe f g = true
    · rw [if_pos h]
    · rw [if_neg h]
      exact (List.Perm.cons g ih).trans (List.Perm.swap f g gs)

/-- The sort is a permutation of its input. -/
theorem sortByName_perm : ∀ l, (sortByName l).Perm l := by
  intro l
  induction l with
  | nil => exact List.Perm.refl _
  | cons f fs ih => exact (insertByName_perm f (sortByName fs)).trans (List.Perm.cons f ih)

/-- Insertion preserves sortedness. -/
theorem insertByName_pairwise (f : LogFile) :
    ∀ l, List.Pairwise (fun a b => nameLe a b = true) l →
      List.Pairwise (fun a b => nameLe a b = true) (insertByName f l) := by
  intro l
  induction l with
  | nil => intro _; simp [insertByName]
  | cons g gs ih =>
    intro hp
    rw [List.pairwise_cons] at hp
    obtain ⟨hg, hgs⟩ := hp
    simp only [insertByName]
    by_cases h : nameLe f g = true
    · rw [if_pos h]
      rw [List.pairwise_cons]
      refine ⟨?_, List.pairwise_cons.mpr ⟨hg, hgs⟩⟩
      intro x hx
      rcases List.mem_cons.mp hx with rfl | hx
      · exact h
      · exact nameLe_trans f g x h (hg x hx)
    · rw [if_neg h]
      rw [List.pairwise_cons]
      constructor
      · intro x hx
        have hx2 := (insertByName_perm f gs).mem_iff.mp hx
        rcases List.mem_cons.mp hx2 with rfl | hx2
        · rcases nameLe_total x g with ht | ht
          · exact absurd ht h
          · exact ht
        · exact hg x hx2
      · exact ih hgs

/-- The sort is sorted by name. -/
theorem sortByName_pairwise : ∀ l, List.Pairwise (fun a b => nameLe a b = true) (sortByName l) := by
  intro l
  induction l with
  | nil => exact List.Pairwise.nil
  | cons f fs ih => exact insertByName_pairwise f (sortByName fs) ih

/-- The list `sortedLogs entries` permutes the `.log` filter of the entries. -/
theorem sortedLogs_perm (entries : List LogFile) :
    (sortedLogs entries).Perm (entries.filter (fun f => isLogName f.name)) :=
  sortByName_perm _

/-- The list `sortedLogs entries` is sorted by name. -/
theorem sortedLogs_pairwise (entries : List LogFile) :
    List.Pairwise (fun a b => nameLe a b = true) (sortedLogs entries) :=
  sortByName_pairwise _

/-! Section: `exMapM` lemmas -/

/-- A successful `exMapM` is pointwise successful. -/
theorem exMapM_fa2 {α β : Type} {f : α → Except String β} :
    ∀ {xs : List α} {ys : List β}, exMapM f xs = Except.ok ys →
      List.Forall₂ (fun x y => f x = Except.ok y) xs ys := by
  intro xs
  induction xs with
  | nil =>
    intro ys h
    simp only [exMapM] at h
    injection h with h
    rw [← h]
    exact List.Forall₂.nil
  | cons a as ih =>
    intro ys h
    simp only [exMapM] at h
    cases hfa : f a with
    | error e => rw [hfa] at h; exact absurd h (by simp)
    | ok b =>
      rw [hfa] at h
      cases hrest : exMapM f as with
      | error e => rw [hrest] at h; exact absurd h (by simp)
      | ok bs =>
        rw [hrest] at h
        dsimp only at h
        injection h with h
        rw [← h]
        exact List.Forall₂.cons hfa (ih hrest)

/-- Left-to-right membership transfer along a `Forall₂`. -/
theorem fa2_mem_left {α β : Type} {R : α → β → Prop} :
    ∀ {xs : List α} {ys : List β}, List.Forall₂ R xs ys →
      ∀ {x : α}, x ∈ xs → ∃ y ∈ ys, R x y := by
  intro xs ys h
  induction h with
  | nil => intro x hx; simp at hx
  | cons hab htail ih =>
    intro x hx
    rcases List.mem_cons.mp hx with rfl | hx
    · exact ⟨_, List.mem_cons_self _ _, hab⟩
    · obtain ⟨y, hy, hr⟩ := ih hx
      exact ⟨y, List.mem_cons_of_mem _ hy, hr⟩

/-- Pointwise equal projections along a `Forall₂` give equal maps. -/
theorem fa2_map_eq {α β γ : Type} {R : α → β → Prop} (g : α → γ) (k : β → γ)
    (hgk : ∀ x y, R x y → g x = k y) :
    ∀ {xs : List α} {ys : List β}, List.Forall₂ R xs ys → xs.map g = ys.map k := by
  intro xs ys h
  induction h with
  | nil => rfl
  | cons hab htail ih => simp [hgk _ _ hab, ih]

/-! Section: Claim C8 -/

/-- Claim C8: `prompt_id` comes from splitting the extension-stripped base
name on `_` and parsing the second token as an integer (`prompt_7.log`
gives 7, `summary.log` gives none); a file whose token is missing or
non-numeric is still processed — it still yields a row of the folder
table, with `prompt_id` null. -/
theorem claim_C8 (entries : List LogFile) (rows : List Row) (wrote : Bool)
    (h : process_folder_logs (some entries) = Except.ok (rows, wrote))
    (f : LogFile) (hf : f ∈ entries.filter (fun e => isLogName e.name)) :
    get_prompt_id "prompt_7.log" = some 7 ∧
    get_prompt_id "summary.log" = none ∧
    ∃ row ∈ rows, row.log_file = f.name ∧ row.prompt_id = get_prompt_id f.name := by
  refine ⟨by decide, by decide, ?_⟩
  simp only [process_folder_logs] at h
  have hmem : f ∈ sortedLogs entries := (sortedLogs_perm entries).mem_iff.mpr hf
  cases hs : sortedLogs entries with
  | nil => rw [hs] at hmem; simp at hmem
  | cons a l =>
    rw [hs] at h hmem
    dsimp only at h
    obtain ⟨rs, hrs, heq⟩ := except_map_ok h
    injection heq with h1 h2
    obtain ⟨row, hrowmem, hfr⟩ := fa2_mem_left (exMapM_fa2 hrs) hmem
    obtain ⟨r0, hr0, hrow⟩ := except_map_ok hfr
    refine ⟨row, ?_, ?_, ?_⟩
    · rw [h1]; exact hrowmem
    · rw [hrow]; rfl
    · rw [hrow]; rfl

/-- Witness for C8: in `demoEntries`, the file `summary.log` (whose name
yields no prompt id) still gets a row. -/
theorem claim_C8_witness :
    process_folder_logs (some demoEntries) = Except.ok (demoRows, true) ∧
    (⟨"summary.log", ["2025-07-15 21:00:00 lone timestamp"]⟩ : LogFile) ∈
      demoEntries.filter (fun e => isLogName e.name) ∧
    (get_prompt_id "prompt_7.log" = some 7 ∧
     get_prompt_id "summary.log" = none ∧
     ∃ row ∈ demoRows,
       row.log_file = (⟨"summary.log", ["2025-07-15 21:00:00 lone timestamp"]⟩ : LogFile).name ∧
       row.prompt_id =
         get_prompt_id (⟨"summary.log", ["2025-07-15 21:00:00 lone timestamp"]⟩ : LogFile).name) :=
  ⟨by decide, by decide,
   claim_C8 demoEntries demoRows true (by decide) _ (by decide)⟩

/-! Section: Claim C9 -/

/-- Claim C9: a missing source folder or a folder without `.log` entries
yields an empty table and no CSV write; otherwise the summary is written
and the rows follow the `.log` entries in sorted-by-name order. -/
theorem claim_C9 (entries : List LogFile) (rows : List Row) (wrote : Bool)
    (h : process_folder_logs (some entries) = Except.ok (rows, wrote)) :
    process_folder_logs none = Except.ok ([], false) ∧
    (entries.filter (fun f => isLogName f.name) = [] → rows = [] ∧ wrote = false) ∧
    (entries.filter (fun f => isLogName f.name) ≠ [] → wrote = true) ∧
    ∃ fs : List LogFile,
      fs.Perm (entries.filter (fun f => isLogName f.name)) ∧
      List.Pairwise (fun a b => nameLe a b = true) fs ∧
      rows.map Row.log_file = fs.map LogFile.name := by
  simp only [process_folder_logs] at h
  cases hs : sortedLogs entries with
  | nil =>
    rw [hs] at h
    dsimp only at h
    injection h with h
    injection h with hrows hwrote
    have hfil : entries.filter (fun f => isLogName f.name) = [] := by
      have hp : ([] : List LogFile).Perm (entries.filter (fun f => isLogName f.name)) :=
        hs ▸ sortedLogs_perm entries
      exact (hp.symm).eq_nil
    refine ⟨rfl, fun _ => ⟨hrows.symm, hwrote.symm⟩, fun hne => absurd hfil hne,
      [], by rw [hfil], List.Pairwise.nil, by rw [← hrows]; rfl⟩
  | cons a l =>
    rw [hs] at h
    dsimp only at h
    obtain ⟨rs, hrs, heq⟩ := except_map_ok h
    injection heq with h1 h2
    have hperm : (a :: l).Perm (entries.filter (fun f => isLogName f.name)) :=
      hs ▸ sortedLogs_perm entries
    have hnonempty : entries.filter (fun f => isLogName f.name) ≠ [] := by
      intro he
      rw [he] at hperm
      have := hperm.eq_nil
      simp at this
    refine ⟨rfl, fun he => absurd he hnonempty, fun _ => h2, a :: l, hperm,
      hs ▸ sortedLogs_pairwise entries, ?_⟩
    rw [h1]
    exact (fa2_map_eq LogFile.name Row.log_file
      (fun x y hxy => by
        obtain ⟨r0, _, hy⟩ := except_map_ok hxy
        rw [hy]; rfl)
      (exMapM_fa2 hrs)).symm

/-- Witness for C9 at the unsorted `demoEntries` listing. -/
theorem claim_C9_witness :
    process_folder_logs (some demoEntries) = Except.ok (demoRows, true) ∧
    (process_folder_logs none = Except.ok ([], false) ∧
     (demoEntries.filter (fun f => isLogName f.name) = [] → demoRows = [] ∧ true = false) ∧
     (demoEntries.filter (fun f => isLogName f.name) ≠ [] → true = true) ∧
     ∃ fs : List LogFile,
       fs.Perm (demoEntries.filter (fun f => isLogName f.name)) ∧
       List.Pairwise (fun a b => nameLe a b = true) fs ∧
       demoRows.map Row.log_file = fs.map LogFile.name) :=
  ⟨by decide, claim_C9 demoEntries demoRows true (by decide)⟩

/-! Section: Claim C10 -/

/-- Claim C10: a missing root yields an empty table; on a successful run
every subfolder (including those without log files, whose table is empty)
contributes its tagged rows, the combined table is their concatenation,
and every non-empty subfolder's rows appear in it tagged with the
subfolder name. -/
theorem claim_C10 (subs : List (String × List LogFile)) (res : List (Row × String))
    (h : process_logs (some subs) = Except.ok res) :
    process_logs none = Except.ok [] ∧
    ∃ tables : List (List (Row × String)),
      List.Forall₂ (fun (sub : String × List LogFile) table => ∃ rows wrote,
        process_folder_logs (some sub.2) = Except.ok (rows, wrote) ∧
        table = rows.map (fun row => (row, sub.1))) subs tables ∧
      res = tables.flatten ∧
      (∀ sub ∈ subs, ∀ rows wrote,
        process_folder_logs (some sub.2) = Except.ok (rows, wrote) →
        ∀ row ∈ rows, (row, sub.1) ∈ res) := by
  simp only [process_logs] at h
  obtain ⟨tables, htab, heq⟩ := except_map_ok h
  have hfa := exMapM_fa2 htab
  refine ⟨rfl, tables, ?_, heq, ?_⟩
  · refine hfa.imp ?_
    intro sub table hst
    obtain ⟨pr, hpr, hteq⟩ := except_map_ok hst
    exact ⟨pr.1, pr.2, by rw [hpr], hteq⟩
  · intro sub hsub rows wrote hok row hrow
    obtain ⟨table, htmem, hst⟩ := fa2_mem_left hfa hsub
    obtain ⟨pr, hpr, hteq⟩ := except_map_ok hst
    rw [hok] at hpr
    injection hpr with hpr
    rw [heq]
    apply List.mem_flatten.mpr
    refine ⟨table, htmem, ?_⟩
    rw [hteq, ← hpr]
    exact List.mem_map_of_mem _ hrow

/-- Witness for C10: a root with one log-free folder and one populated
folder; the combined table is the populated folder's tagged rows. -/
theorem claim_C10_witness :
    process_logs (some demoSubs) = Except.ok demoTagged ∧
    (process_logs none = Except.ok [] ∧
     ∃ tables : List (List (Row × String)),
       List.Forall₂ (fun (sub : String × List LogFile) table => ∃ rows wrote,
         process_folder_logs (some sub.2) = Except.ok (rows, wrote) ∧
         table = rows.map (fun row => (row, sub.1))) demoSubs tables ∧
       demoTagged = tables.flatten ∧
       (∀ sub ∈ demoSubs, ∀ rows wrote,
         process_folder_logs (some sub.2) = Except.ok (rows, wrote) →
         ∀ row ∈ rows, (row, sub.1) ∈ demoTagged)) :=
  ⟨by decide, claim_C10 demoSubs demoTagged (by decide)⟩
